import Mathlib

/-
Verification of the live-state tracking and notification logic of the
Twitch/YouTube live-notification extensions (src/twitch.py, src/youtube.py).

The embedding below translates the tracker code directly:

* `TwitchUser`, `TwitchStream`, `YouTubeChannel`, `YouTubeStream` mirror the
  Python `NamedTuple` value types (equality is field-wise, as for NamedTuples).
* `twitchDiff` embeds the body of `TwitchNotifications.get_notifications`
  (twitch.py lines 205-222): a loop over the watch list that removes offline
  names from `self.online_users` (a Python list; `remove` deletes the first
  occurrence and a missing name is swallowed by `try/except ValueError`),
  skips names already online, and appends newly live streams.
* `ytRemoveStaleFuel` embeds the first loop of
  `YouTubeNotifications.get_notifications` (youtube.py lines 198-200), which
  mutates `self.running_streams` while iterating it.  A Python list iterator
  keeps an integer cursor: each step reads index `i` of the *current* list
  (stopping when `i` is out of range) and `list.remove` deletes the first
  element equal to the read one.  The cursor semantics is modelled exactly;
  the fuel argument only bounds the number of iterations and is initialised
  to the list length, which is an upper bound on the number of cursor steps
  (the cursor grows by one per step and the loop stops as soon as the cursor
  reaches the current length, which never grows), and the fuel-exhaustion
  branch returns the same value as the loop-exit branch.
* `ytDiff` embeds both loops of `YouTubeNotifications.get_notifications`
  (youtube.py lines 196-209).
* `twitch_get_notifications`, `yt_get_channels`, `yt_get_streams`,
  `yt_get_notifications` embed the fetch/diff pipeline with explicit error
  plumbing: raised exceptions become `Except.error`, and the Python value
  `None` (returned by the YouTube fetchers on the quota branch) becomes
  `Option.none`; iterating `None` is Python's `TypeError`.
* `twitch_refresh_notify_check` / `yt_refresh_notify_check` embed the timer
  tick bodies (twitch.py lines 224-250, youtube.py lines 211-231): the
  destination-channel check that raises `DiscordException` when the channel
  is missing, the fetch/diff, and the delivery loop whose `try/except
  discord.HTTPException` logs a warning per failed send and continues.
-/

/-- The `TwitchUser` NamedTuple of twitch.py (lines 74-87). -/
structure TwitchUser where
  id : String
  login : String
  display_name : String
  type : String
  broadcaster_type : String
  description : String
  profile_image_url : String
  offline_image_url : String
  view_count : Nat
  deriving DecidableEq, Repr

/-- The `TwitchStream` NamedTuple of twitch.py (lines 90-101). -/
structure TwitchStream where
  id : String
  user : TwitchUser
  game_id : String
  game_name : String
  type : String
  title : String
  tags : List String
  viewer_count : Nat
  started_at : String
  language : String
  thumbnail_url : String
  deriving DecidableEq, Repr

/-- `discord.utils.get(streams, user__login=user_name)` of twitch.py line 207:
the first stream whose `user.login` equals the watched name, or `None`. -/
def findStream (streams : List TwitchStream) (name : String) : Option TwitchStream :=
  streams.find? (fun s => s.user.login == name)

/-- One iteration of the watch-list loop of
`TwitchNotifications.get_notifications` (twitch.py lines 206-220).  The state
is the pair `(cache, online_users)`.  When the watched name has no live
stream, `self.online_users.remove(user_name)` deletes its first occurrence
(`List.erase`; the `try/except ValueError/finally: continue` makes a missing
name a no-op, which `List.erase` already is).  When the name is already in
`online_users` the stream is skipped; otherwise it is appended to the cache
and the name to `online_users`. -/
def twitchStep (streams : List TwitchStream) (st : List TwitchStream × List String)
    (name : String) : List TwitchStream × List String :=
  match findStream streams name with
  | none => (st.1, st.2.erase name)
  | some s => if name ∈ st.2 then st else (st.1 ++ [s], st.2 ++ [name])

/-- The diff at the heart of `TwitchNotifications.get_notifications`
(twitch.py lines 205-222): fold the watch-list loop over `wl`, starting from
an empty cache and the prior `online_users`, returning the notification cache
and the updated `online_users`. -/
def twitchDiff (wl : List String) (streams : List TwitchStream)
    (online : List String) : List TwitchStream × List String :=
  wl.foldl (twitchStep streams) ([], online)

/-- Errors raised inside the Twitch watcher: `TwitchRequestError` (twitch.py
line 46) and the `DiscordException` raised when the destination channel is
missing (twitch.py line 229). -/
inductive TwitchErr where
  | requestError (msg : String)
  | channelNotFound
  deriving DecidableEq, Repr

/-- `TwitchNotifications.get_notifications` (twitch.py lines 200-222) with the
two fetches made explicit: `usersR` is the outcome of `get_users` and
`streamsR` the outcome of `get_streams` on the fetched users (either may
raise `TwitchRequestError`).  Returns the result (or the propagated
exception) together with the `online_users` state after the call; the state
is only mutated by the diff loop, which runs after both fetches succeed. -/
def twitch_get_notifications (wl : List String)
    (usersR : Except TwitchErr (List TwitchUser))
    (streamsR : List TwitchUser → Except TwitchErr (List TwitchStream))
    (online : List String) :
    Except TwitchErr (List TwitchStream) × List String :=
  match usersR with
  | .error e => (.error e, online)
  | .ok users =>
    match streamsR users with
    | .error e => (.error e, online)
    | .ok streams =>
      let d := twitchDiff wl streams online
      (.ok d.1, d.2)

/-- The delivery loop of the tick (twitch.py lines 232-250, youtube.py lines
219-231): each stream is sent in order; a rejected send
(`discord.HTTPException`) is caught, a warning is logged, and the loop
continues with the next stream.  `sendOk s` tells whether sending `s`
succeeds.  Returns the list of streams actually delivered and the number of
logged warnings. -/
def deliver {α : Type} (sendOk : α → Bool) (cache : List α) : List α × Nat :=
  cache.foldl
    (fun acc s => if sendOk s then (acc.1 ++ [s], acc.2) else (acc.1, acc.2 + 1))
    ([], 0)

/-- `TwitchNotifications.refresh_notify_check` (twitch.py lines 224-250): if
the destination channel is missing, `DiscordException` is raised before any
fetch; otherwise `get_notifications` runs (its exceptions propagate) and the
returned streams are delivered one by one.  Returns the tick outcome
(delivered streams and warning count, or the raised exception) together with
the `online_users` state after the tick. -/
def twitch_refresh_notify_check (channelFound : Bool) (wl : List String)
    (usersR : Except TwitchErr (List TwitchUser))
    (streamsR : List TwitchUser → Except TwitchErr (List TwitchStream))
    (online : List String) (sendOk : TwitchStream → Bool) :
    Except TwitchErr (List TwitchStream × Nat) × List String :=
  if channelFound then
    match twitch_get_notifications wl usersR streamsR online with
    | (.error e, st) => (.error e, st)
    | (.ok cache, st) => (.ok (deliver sendOk cache), st)
  else (.error .channelNotFound, online)

/-- The `YouTubeChannel` NamedTuple of youtube.py (lines 74-81). -/
structure YouTubeChannel where
  id : String
  name : String
  icon_url : String
  deriving DecidableEq, Repr

/-- The `YouTubeStream` NamedTuple of youtube.py (lines 84-94).  The
`started_at` datetime is modelled as a string; NamedTuple equality is
field-wise, which `DecidableEq` mirrors. -/
structure YouTubeStream where
  channel : YouTubeChannel
  video_id : String
  started_at : String
  title : String
  description : String
  thumbnail_url : String
  deriving DecidableEq, Repr

/-- One search result item of the YouTube `search` endpoint, carrying the
fields read by `YouTubeNotifications.get_streams` (youtube.py lines 178-187). -/
structure YtSearchItem where
  video_id : String
  published_at : String
  title : String
  description : String
  thumbnail_url : String
  deriving DecidableEq, Repr

/-- Building a `YouTubeStream` from a channel and a search item
(youtube.py lines 178-187). -/
def mkYouTubeStream (channel : YouTubeChannel) (item : YtSearchItem) : YouTubeStream :=
  ⟨channel, item.video_id, item.published_at, item.title, item.description,
    item.thumbnail_url⟩

/-- Outcome of one YouTube API request, as branched on in youtube.py lines
133-140 and 166-172: a 200 response carrying an item list, a non-200 response
whose reason is `quotaExceeded`, or a non-200 response with another reason. -/
inductive YtItems (α : Type) where
  | ok (items : List α)
  | quota
  | err (reason : String)
  deriving DecidableEq, Repr

/-- Whether a response is a 200 response. -/
def YtItems.isOk {α : Type} : YtItems α → Bool
  | .ok _ => true
  | _ => false

/-- Errors arising in the YouTube watcher: the `TypeError` Python raises when
iterating `None`, `YouTubeRequestError` (youtube.py line 43), and the
`DiscordException` for a missing destination channel (youtube.py line 216). -/
inductive PyErr where
  | typeError
  | requestError (reason : String)
  | channelNotFound
  deriving DecidableEq, Repr

/-- The loop of `YouTubeNotifications.get_channels` (youtube.py lines
127-154): for each watched name, on a quota-exceeded response the function
logs at debug level and executes a bare `return`, i.e. returns `None`
(`Option.none`); on any other non-200 response it raises
`YouTubeRequestError`; on a 200 response with no items it continues, and
otherwise appends the first item. -/
def ytGetChannelsGo (resp : String → YtItems YouTubeChannel) :
    List String → List YouTubeChannel → Except PyErr (Option (List YouTubeChannel))
  | [], cache => .ok (some cache)
  | n :: rest, cache =>
    match resp n with
    | .quota => .ok none
    | .err r => .error (.requestError r)
    | .ok [] => ytGetChannelsGo resp rest cache
    | .ok (c :: _) => ytGetChannelsGo resp rest (cache ++ [c])

/-- `YouTubeNotifications.get_channels` (youtube.py lines 124-154). -/
def yt_get_channels (names : List String) (resp : String → YtItems YouTubeChannel) :
    Except PyErr (Option (List YouTubeChannel)) :=
  ytGetChannelsGo resp names []

/-- The loop of `YouTubeNotifications.get_streams` (youtube.py lines
159-189), per channel, with the same quota / error / empty-items branches as
`get_channels`. -/
def ytGetStreamsGo (resp : YouTubeChannel → YtItems YtSearchItem) :
    List YouTubeChannel → List YouTubeStream → Except PyErr (Option (List YouTubeStream))
  | [], cache => .ok (some cache)
  | ch :: rest, cache =>
    match resp ch with
    | .quota => .ok none
    | .err r => .error (.requestError r)
    | .ok [] => ytGetStreamsGo resp rest cache
    | .ok (it :: _) => ytGetStreamsGo resp rest (cache ++ [mkYouTubeStream ch it])

/-- `YouTubeNotifications.get_streams` (youtube.py lines 156-189).  Its
argument is the value returned by `get_channels`, which may be `None`
(quota branch); `for channel in channels` then raises `TypeError`. -/
def yt_get_streams (channelsOpt : Option (List YouTubeChannel))
    (resp : YouTubeChannel → YtItems YtSearchItem) :
    Except PyErr (Option (List YouTubeStream)) :=
  match channelsOpt with
  | none => .error .typeError
  | some channels => ytGetStreamsGo resp channels []

/-- The stale-removal loop of `YouTubeNotifications.get_notifications`
(youtube.py lines 198-200), `for stream in self.running_streams: if stream
not in streams: self.running_streams.remove(stream)`, with Python's list
iterator semantics made explicit: the cursor `i` reads index `i` of the
current list (the loop ends when `i` is out of range) and `remove` deletes
the first occurrence of the read element (`List.erase`), after which the
cursor still advances — the classic skip-after-remove behaviour.  `fuel`
bounds the iteration count; exhaustion returns the current list, exactly as
the loop-exit branch does, and the wrapper passes fuel `running.length`,
which the cursor can never exceed. -/
def ytRemoveStaleFuel (streams : List YouTubeStream) :
    Nat → List YouTubeStream → Nat → List YouTubeStream
  | 0, running, _ => running
  | fuel + 1, running, i =>
    match running[i]? with
    | none => running
    | some s =>
      if s ∈ streams then ytRemoveStaleFuel streams fuel running (i + 1)
      else ytRemoveStaleFuel streams fuel (running.erase s) (i + 1)

/-- The stale-removal loop of youtube.py lines 198-200 on a whole list. -/
def ytRemoveStale (streams running : List YouTubeStream) : List YouTubeStream :=
  ytRemoveStaleFuel streams running.length running 0

/-- One iteration of the second loop of
`YouTubeNotifications.get_notifications` (youtube.py lines 202-207): a
current stream already in `running_streams` is skipped, otherwise it is
appended to the cache and to `running_streams`.  Membership is Python `in`,
i.e. full NamedTuple equality. -/
def ytAddStep (st : List YouTubeStream × List YouTubeStream) (s : YouTubeStream) :
    List YouTubeStream × List YouTubeStream :=
  if s ∈ st.2 then st else (st.1 ++ [s], st.2 ++ [s])

/-- The diff of `YouTubeNotifications.get_notifications` (youtube.py lines
196-209): remove stale entries from `running_streams`, then report and record
the current streams not already running.  Returns the notification cache and
the updated `running_streams`. -/
def ytDiff (streams running : List YouTubeStream) :
    List YouTubeStream × List YouTubeStream :=
  streams.foldl ytAddStep ([], ytRemoveStale streams running)

/-- `YouTubeNotifications.get_notifications` (youtube.py lines 191-209) with
the two fetches explicit.  When `get_channels` returns `None` (quota),
`get_streams(None)` raises `TypeError`; when `get_streams` itself returns
`None` (quota), the diff loops iterate `None` — `stream not in None` (or
`for stream in None` when `running_streams` is empty) — and raise `TypeError`
before any mutation of `running_streams`.  Returns the outcome and the
`running_streams` state after the call. -/
def yt_get_notifications (wl : List String)
    (chanResp : String → YtItems YouTubeChannel)
    (streamResp : YouTubeChannel → YtItems YtSearchItem)
    (running : List YouTubeStream) :
    Except PyErr (List YouTubeStream) × List YouTubeStream :=
  match yt_get_channels wl chanResp with
  | .error e => (.error e, running)
  | .ok channelsOpt =>
    match yt_get_streams channelsOpt streamResp with
    | .error e => (.error e, running)
    | .ok none => (.error .typeError, running)
    | .ok (some streams) =>
      let d := ytDiff streams running
      (.ok d.1, d.2)

/-- `YouTubeNotifications.refresh_notify_check` (youtube.py lines 211-231):
missing destination channel raises `DiscordException` before any fetch;
otherwise `get_notifications` runs and its streams are delivered with
per-send error handling. -/
def yt_refresh_notify_check (channelFound : Bool) (wl : List String)
    (chanResp : String → YtItems YouTubeChannel)
    (streamResp : YouTubeChannel → YtItems YtSearchItem)
    (running : List YouTubeStream) (sendOk : YouTubeStream → Bool) :
    Except PyErr (List YouTubeStream × Nat) × List YouTubeStream :=
  if channelFound then
    match yt_get_notifications wl chanResp streamResp running with
    | (.error e, st) => (.error e, st)
    | (.ok cache, st) => (.ok (deliver sendOk cache), st)
  else (.error .channelNotFound, running)

/-- A sample Twitch user named alice. -/
def aliceUser : TwitchUser :=
  ⟨"101", "alice", "Alice", "", "", "", "", "", 0⟩

/-- A sample Twitch user named bob. -/
def bobUser : TwitchUser :=
  ⟨"102", "bob", "Bob", "", "", "", "", "", 0⟩

/-- A live stream of alice. -/
def aliceStream : TwitchStream :=
  ⟨"9001", aliceUser, "1", "GameA", "live", "alice live", [], 5, "t0", "en", "u"⟩

/-- A live stream of bob. -/
def bobStream : TwitchStream :=
  ⟨"9002", bobUser, "2", "GameB", "live", "bob live", [], 7, "t0", "en", "u"⟩

/-- A sample YouTube channel. -/
def ytChanA : YouTubeChannel := ⟨"UC1", "ChanA", "iconA"⟩

/-- A second sample YouTube channel. -/
def ytChanB : YouTubeChannel := ⟨"UC2", "ChanB", "iconB"⟩

/-- A sample YouTube stream on channel A. -/
def ysA : YouTubeStream := ⟨ytChanA, "v1", "t0", "TitleA", "", ""⟩

/-- A sample YouTube stream on channel B. -/
def ysB : YouTubeStream := ⟨ytChanB, "v2", "t0", "TitleB", "", ""⟩

/-- A third sample YouTube stream. -/
def ysC : YouTubeStream := ⟨ytChanA, "v3", "t1", "TitleC", "", ""⟩

/-- A fourth sample YouTube stream. -/
def ysD : YouTubeStream := ⟨ytChanB, "v4", "t1", "TitleD", "", ""⟩

/-- A stream with the same video id as `ysA` but a different title. -/
def ysA2 : YouTubeStream := ⟨ytChanA, "v1", "t0", "TitleA updated", "", ""⟩

/-- A sample search item for channel A. -/
def itemA : YtSearchItem := ⟨"v1", "t0", "TitleA", "", ""⟩

/-- Claim C1: the online state after a tick is claimed to equal exactly the
identifiers of the currently live streams, with no stale entry surviving.
The code refutes this at concrete inputs: with two YouTube streams that both
ended, the stale-removal loop removes the first but — because it removes
while iterating — skips and keeps the second; and the Twitch loop never
removes an online entry whose channel is no longer in the watch list. -/
theorem claim1_stale_entries_survive :
    ytDiff [] [ysA, ysB] = ([], [ysB])
    ∧ twitchDiff ["bob"] [] ["carol"] = ([], ["carol"]) := by
  constructor <;> rfl

/-- Claim C2: on a quota-exceeded response, `get_channels` returns `None`
(bare `return`), and `get_notifications` passes that `None` to `get_streams`,
whose `for channel in channels` raises `TypeError`: the tick raises instead
of completing with zero notifications.  The state is left unchanged, but an
exception does propagate, contradicting the claim's no-raise requirement. -/
theorem claim2_quota_raises :
    yt_get_notifications ["chan"] (fun _ => YtItems.quota) (fun _ => YtItems.ok [])
      [ysA] = (.error .typeError, [ysA]) := by
  rfl

/-- Claim C4: with an empty current-live set the claim says the online state
becomes empty.  The code refutes this: Twitch keeps the prior entry "alice"
(not in the watch list, so never removed), and the YouTube stale-removal loop
keeps the second of two stale entries.  The newly-live list is indeed empty. -/
theorem claim4_empty_live_state_not_emptied :
    twitchDiff ["bob"] [] ["alice", "bob"] = ([], ["alice"])
    ∧ ytDiff [] [ysC, ysD] = ([], [ysD]) := by
  constructor <;> rfl

/-- Claim C5 counterexample: YouTube dedup compares whole NamedTuples, not
video ids.  `ysA2` has the same video id as the running stream `ysA` but a
changed title; the tick removes `ysA` as stale and reports `ysA2` as newly
live again, refuting the claim that a metadata change does not re-notify. -/
theorem claim5_counterexample :
    ysA.video_id = ysA2.video_id ∧ ysA ≠ ysA2
    ∧ ytDiff [ysA2] [ysA] = ([ysA2], [ysA2]) := by
  refine ⟨rfl, by decide, rfl⟩

/-- Claim C8: Scenario B on the Twitch tracker — prior online alice and bob,
current live only bob's stream: no new notification, alice dropped, bob kept. -/
theorem claim8_scenario_b :
    twitchDiff ["alice", "bob"] [bobStream] ["alice", "bob"] = ([], ["bob"]) := by
  rfl

/-- The stream found for a watched name carries that name as its login. -/
theorem findStream_login (streams : List TwitchStream) (name : String)
    (x : TwitchStream) (h : findStream streams name = some x) :
    x.user.login = name := by
  unfold findStream at h
  have hp := List.find?_some h
  exact eq_of_beq hp

/-- One step of the Twitch watch-list loop keeps a live name in the online
list: the only removal is `erase` of a name with no live stream. -/
theorem twitchStep_online_mem (streams : List TwitchStream)
    (st : List TwitchStream × List String) (name n : String)
    (hlive : (findStream streams n).isSome) (hmem : n ∈ st.2) :
    n ∈ (twitchStep streams st name).2 := by
  cases hfind : findStream streams name with
  | none =>
    have hne : n ≠ name := by
      intro he
      rw [he, hfind] at hlive
      simp at hlive
    simp only [twitchStep, hfind]
    exact (List.mem_erase_of_ne hne).mpr hmem
  | some s =>
    by_cases hc : name ∈ st.2
    · simpa [twitchStep, hfind, hc] using hmem
    · simp only [twitchStep, hfind, if_neg hc]
      exact List.mem_append.mpr (Or.inl hmem)

/-- The whole Twitch watch-list loop keeps a live name in the online list. -/
theorem twitch_online_mem_foldl (streams : List TwitchStream) (wl : List String)
    (st : List TwitchStream × List String) (n : String)
    (hlive : (findStream streams n).isSome) (hmem : n ∈ st.2) :
    n ∈ (wl.foldl (twitchStep streams) st).2 := by
  induction wl generalizing st with
  | nil => exact hmem
  | cons name rest ih =>
    rw [List.foldl_cons]
    exact ih _ (twitchStep_online_mem streams st name n hlive hmem)

/-- After the Twitch watch-list loop, every watched name with a live stream is
in the online list. -/
theorem twitch_live_mem_online_final (streams : List TwitchStream)
    (wl : List String) (st : List TwitchStream × List String) (n : String)
    (hn : n ∈ wl) (hlive : (findStream streams n).isSome) :
    n ∈ (wl.foldl (twitchStep streams) st).2 := by
  induction wl generalizing st with
  | nil => cases hn
  | cons name rest ih =>
    rw [List.foldl_cons]
    rcases List.mem_cons.mp hn with he | ht
    · subst he
      apply twitch_online_mem_foldl streams rest _ n hlive
      obtain ⟨s, hs⟩ := Option.isSome_iff_exists.mp hlive
      by_cases hc : n ∈ st.2
      · simp [twitchStep, hs, hc]
      · simp only [twitchStep, hs, if_neg hc]
        exact List.mem_append.mpr (Or.inr (List.mem_singleton.mpr rfl))
    · exact ih _ ht

/-- If every watched name with a live stream is already online, the Twitch
watch-list loop adds nothing to the notification cache. -/
theorem twitch_foldl_cache_const (streams : List TwitchStream) (wl : List String)
    (st : List TwitchStream × List String)
    (h : ∀ n ∈ wl, (findStream streams n).isSome → n ∈ st.2) :
    (wl.foldl (twitchStep streams) st).1 = st.1 := by
  induction wl generalizing st with
  | nil => rfl
  | cons name rest ih =>
    rw [List.foldl_cons]
    cases hfind : findStream streams name with
    | none =>
      have hstep : twitchStep streams st name = (st.1, st.2.erase name) := by
        simp [twitchStep, hfind]
      rw [hstep]
      refine ih _ (fun n hn hlive => ?_)
      have hne : n ≠ name := by
        intro he
        rw [he, hfind] at hlive
        simp at hlive
      exact (List.mem_erase_of_ne hne).mpr (h n (List.mem_cons_of_mem _ hn) hlive)
    | some s =>
      have hmem : name ∈ st.2 :=
        h name (List.mem_cons_self _ _) (by rw [hfind]; rfl)
      have hstep : twitchStep streams st name = st := by
        simp [twitchStep, hfind, hmem]
      rw [hstep]
      exact ih _ (fun n hn hlive => h n (List.mem_cons_of_mem _ hn) hlive)

/-- One step of the YouTube record loop never removes an online entry. -/
theorem ytAddStep_online_mono (st : List YouTubeStream × List YouTubeStream)
    (x s : YouTubeStream) (h : s ∈ st.2) : s ∈ (ytAddStep st x).2 := by
  by_cases hc : x ∈ st.2
  · simpa [ytAddStep, hc] using h
  · simp only [ytAddStep, if_neg hc]
    exact List.mem_append.mpr (Or.inl h)

/-- The YouTube record loop never removes an online entry. -/
theorem ytAdd_foldl_online_mono (xs : List YouTubeStream)
    (st : List YouTubeStream × List YouTubeStream) (s : YouTubeStream)
    (h : s ∈ st.2) : s ∈ (xs.foldl ytAddStep st).2 := by
  induction xs generalizing st with
  | nil => exact h
  | cons x rest ih =>
    rw [List.foldl_cons]
    exact ih _ (ytAddStep_online_mono st x s h)

/-- After the YouTube record loop, every current stream is recorded. -/
theorem ytAdd_foldl_mem_final (xs : List YouTubeStream)
    (st : List YouTubeStream × List YouTubeStream) (s : YouTubeStream)
    (hs : s ∈ xs) : s ∈ (xs.foldl ytAddStep st).2 := by
  induction xs generalizing st with
  | nil => cases hs
  | cons x rest ih =>
    rw [List.foldl_cons]
    rcases List.mem_cons.mp hs with he | ht
    · subst he
      apply ytAdd_foldl_online_mono
      by_cases hc : s ∈ st.2
      · simp [ytAddStep, hc]
      · simp only [ytAddStep, if_neg hc]
        exact List.mem_append.mpr (Or.inr (List.mem_singleton.mpr rfl))
    · exact ih _ ht

/-- If every current stream is already recorded, the YouTube record loop adds
nothing to the notification cache. -/
theorem ytAdd_foldl_cache_const (xs : List YouTubeStream)
    (st : List YouTubeStream × List YouTubeStream)
    (h : ∀ s ∈ xs, s ∈ st.2) : (xs.foldl ytAddStep st).1 = st.1 := by
  induction xs generalizing st with
  | nil => rfl
  | cons x rest ih =>
    rw [List.foldl_cons]
    have hx : x ∈ st.2 := h x (List.mem_cons_self _ _)
    have hstep : ytAddStep st x = st := by simp [ytAddStep, hx]
    rw [hstep]
    exact ih _ (fun s hs => h s (List.mem_cons_of_mem _ hs))

/-- The stale-removal loop only ever erases entries that are not in the
current stream list, so it keeps every entry that is still live. -/
theorem ytRemoveStaleFuel_keeps_live (streams : List YouTubeStream) (fuel : Nat)
    (running : List YouTubeStream) (i : Nat) (s : YouTubeStream)
    (hs : s ∈ streams) (hr : s ∈ running) :
    s ∈ ytRemoveStaleFuel streams fuel running i := by
  induction fuel generalizing running i with
  | zero => exact hr
  | succ fuel ih =>
    unfold ytRemoveStaleFuel
    cases hx : running[i]? with
    | none => exact hr
    | some x =>
      by_cases hc : x ∈ streams
      · simp only [if_pos hc]
        exact ih running (i + 1) hr
      · simp only [if_neg hc]
        have hne : s ≠ x := fun he => hc (he ▸ hs)
        exact ih _ (i + 1) ((List.mem_erase_of_ne hne).mpr hr)

/-- `ytRemoveStale` keeps every entry that is still in the current list. -/
theorem ytRemoveStale_keeps_live (streams running : List YouTubeStream)
    (s : YouTubeStream) (hs : s ∈ streams) (hr : s ∈ running) :
    s ∈ ytRemoveStale streams running :=
  ytRemoveStaleFuel_keeps_live streams running.length running 0 s hs hr

/-- Claim C6: the diff is idempotent — a second run with the same current-live
set, started from the online state the first run produced, reports nothing
newly live, for both the Twitch and the YouTube tracker. -/
theorem claim6_idempotent (wl : List String) (streams : List TwitchStream)
    (online : List String) (ystreams running : List YouTubeStream) :
    (twitchDiff wl streams (twitchDiff wl streams online).2).1 = []
    ∧ (ytDiff ystreams (ytDiff ystreams running).2).1 = [] := by
  constructor
  · exact twitch_foldl_cache_const streams wl _ (fun n hn hlive =>
      twitch_live_mem_online_final streams wl _ n hn hlive)
  · refine ytAdd_foldl_cache_const ystreams _ (fun s hs => ?_)
    exact ytRemoveStale_keeps_live ystreams _ s hs
      (ytAdd_foldl_mem_final ystreams _ s hs)

/-- Claim C10: if a fetch fails before the diff runs, the tracker state is
exactly what it was before the tick — no partial update, on either platform. -/
theorem claim10_fetch_error_atomic (wl : List String)
    (usersR : Except TwitchErr (List TwitchUser))
    (streamsR : List TwitchUser → Except TwitchErr (List TwitchStream))
    (online : List String) (e : TwitchErr)
    (ywl : List String) (chanResp : String → YtItems YouTubeChannel)
    (streamResp : YouTubeChannel → YtItems YtSearchItem)
    (running : List YouTubeStream) (e2 : PyErr) :
    ((twitch_get_notifications wl usersR streamsR online).1 = .error e →
      (twitch_get_notifications wl usersR streamsR online).2 = online)
    ∧ ((yt_get_notifications ywl chanResp streamResp running).1 = .error e2 →
      (yt_get_notifications ywl chanResp streamResp running).2 = running) := by
  constructor
  · intro h
    cases usersR with
    | error e3 => rfl
    | ok users =>
      cases hs : streamsR users with
      | error e3 => simp [twitch_get_notifications, hs]
      | ok streams =>
        exfalso
        simp [twitch_get_notifications, hs] at h
  · intro h
    cases hch : yt_get_channels ywl chanResp with
    | error e3 => simp [yt_get_notifications, hch]
    | ok copt =>
      cases hst : yt_get_streams copt streamResp with
      | error e3 => simp [yt_get_notifications, hch, hst]
      | ok sopt =>
        cases sopt with
        | none => simp [yt_get_notifications, hch, hst]
        | some streams =>
          exfalso
          simp [yt_get_notifications, hch, hst] at h

/-- Witness for C10 at concrete failing fetches on both platforms. -/
theorem claim10_witness :
    (twitch_get_notifications ["alice"] (.error (.requestError "boom"))
        (fun _ => .ok []) ["x"]).2 = ["x"]
    ∧ (yt_get_notifications ["chan"] (fun _ => YtItems.err "backendError")
        (fun _ => YtItems.ok []) [ysA]).2 = [ysA] :=
  ⟨(claim10_fetch_error_atomic ["alice"] (.error (.requestError "boom"))
      (fun _ => .ok []) ["x"] (.requestError "boom") ["chan"]
      (fun _ => YtItems.err "backendError") (fun _ => YtItems.ok []) [ysA]
      (.requestError "backendError")).1 rfl,
   (claim10_fetch_error_atomic ["alice"] (.error (.requestError "boom"))
      (fun _ => .ok []) ["x"] (.requestError "boom") ["chan"]
      (fun _ => YtItems.err "backendError") (fun _ => YtItems.ok []) [ysA]
      (.requestError "backendError")).2 rfl⟩

/-- Anything surviving the stale-removal loop was in the list to start with. -/
theorem ytRemoveStaleFuel_subset (streams : List YouTubeStream) (fuel : Nat)
    (running : List YouTubeStream) (i : Nat) (s : YouTubeStream)
    (h : s ∈ ytRemoveStaleFuel streams fuel running i) : s ∈ running := by
  induction fuel generalizing running i with
  | zero => exact h
  | succ fuel ih =>
    unfold ytRemoveStaleFuel at h
    revert h
    cases hx : running[i]? with
    | none => exact fun h => h
    | some x =>
      intro h
      dsimp only at h
      by_cases hc : x ∈ streams
      · rw [if_pos hc] at h
        exact ih _ _ h
      · rw [if_neg hc] at h
        exact List.mem_of_mem_erase (ih _ _ h)

/-- Every stream the YouTube record loop adds to the cache comes from the
current stream list and was not in the record list when processed. -/
theorem ytAdd_foldl_cache_src (xs : List YouTubeStream)
    (st : List YouTubeStream × List YouTubeStream) (s : YouTubeStream)
    (h : s ∈ (xs.foldl ytAddStep st).1) :
    s ∈ st.1 ∨ (s ∈ xs ∧ s ∉ st.2) := by
  induction xs generalizing st with
  | nil => exact Or.inl h
  | cons x rest ih =>
    rw [List.foldl_cons] at h
    by_cases hc : x ∈ st.2
    · have hstep : ytAddStep st x = st := by simp [ytAddStep, hc]
      rw [hstep] at h
      rcases ih _ h with h1 | ⟨h2, h3⟩
      · exact Or.inl h1
      · exact Or.inr ⟨List.mem_cons_of_mem _ h2, h3⟩
    · have hstep : ytAddStep st x = (st.1 ++ [x], st.2 ++ [x]) := by
        simp [ytAddStep, hc]
      rw [hstep] at h
      rcases ih _ h with h1 | ⟨h2, h3⟩
      · rcases List.mem_append.mp h1 with h4 | h4
        · exact Or.inl h4
        · have hx : s = x := List.mem_singleton.mp h4
          subst hx
          exact Or.inr ⟨List.mem_cons_self _ _, hc⟩
      · refine Or.inr ⟨List.mem_cons_of_mem _ h2, fun hm => h3 ?_⟩
        exact List.mem_append.mpr (Or.inl hm)

/-- Every stream the Twitch watch-list loop adds to the cache belongs to a
watched name that has a live stream and was not online when processed. -/
theorem twitch_cache_src (streams : List TwitchStream) (wl : List String)
    (st : List TwitchStream × List String) (s : TwitchStream)
    (h : s ∈ (wl.foldl (twitchStep streams) st).1) :
    s ∈ st.1
      ∨ ((findStream streams s.user.login).isSome ∧ s.user.login ∉ st.2) := by
  induction wl generalizing st with
  | nil => exact Or.inl h
  | cons name rest ih =>
    rw [List.foldl_cons] at h
    cases hfind : findStream streams name with
    | none =>
      have hstep : twitchStep streams st name = (st.1, st.2.erase name) := by
        simp [twitchStep, hfind]
      rw [hstep] at h
      rcases ih _ h with h1 | ⟨h2, h3⟩
      · exact Or.inl h1
      · refine Or.inr ⟨h2, fun hm => h3 ?_⟩
        have hne : s.user.login ≠ name := by
          intro he
          rw [he, hfind] at h2
          simp at h2
        exact (List.mem_erase_of_ne hne).mpr hm
    | some x =>
      by_cases hc : name ∈ st.2
      · have hstep : twitchStep streams st name = st := by
          simp [twitchStep, hfind, hc]
        rw [hstep] at h
        exact ih _ h
      · have hstep : twitchStep streams st name = (st.1 ++ [x], st.2 ++ [name]) := by
          simp [twitchStep, hfind, hc]
        rw [hstep] at h
        rcases ih _ h with h1 | ⟨h2, h3⟩
        · rcases List.mem_append.mp h1 with h4 | h4
          · exact Or.inl h4
          · have hx : s = x := List.mem_singleton.mp h4
            subst hx
            have hlogin : s.user.login = name := findStream_login streams name s hfind
            refine Or.inr ⟨?_, ?_⟩
            · rw [hlogin, hfind]; rfl
            · rw [hlogin]; exact hc
        · refine Or.inr ⟨h2, fun hm => h3 ?_⟩
          exact List.mem_append.mpr (Or.inl hm)

/-- Claim C5, amended: the dedup key the code actually uses is the channel
login name for Twitch — a stream whose channel is already online is never
re-reported, whatever its other fields — and full structural (NamedTuple)
equality for YouTube — only a stream structurally identical to a running one
is suppressed, so (per the counterexample) a metadata change re-notifies. -/
theorem claim5_amended_dedup_keys (wl : List String) (streams : List TwitchStream)
    (online : List String) (ystreams running : List YouTubeStream) :
    (∀ s ∈ (twitchDiff wl streams online).1, s.user.login ∉ online)
    ∧ (∀ s ∈ (ytDiff ystreams running).1, s ∈ ystreams ∧ s ∉ running) := by
  constructor
  · intro s hs
    rcases twitch_cache_src streams wl ([], online) s hs with h1 | ⟨_, h2⟩
    · cases h1
    · exact h2
  · intro s hs
    rcases ytAdd_foldl_cache_src ystreams ([], ytRemoveStale ystreams running) s hs
      with h1 | ⟨h2, h3⟩
    · cases h1
    · exact ⟨h2, fun hr => h3 (ytRemoveStale_keeps_live ystreams running s h2 hr)⟩

/-- Witness for the amended C5 at concrete inputs on both platforms. -/
theorem claim5_amended_witness :
    bobStream.user.login ∉ (["alice"] : List String)
    ∧ (ysB ∈ [ysB] ∧ ysB ∉ [ysA]) :=
  ⟨(claim5_amended_dedup_keys ["bob"] [bobStream] ["alice"] [ysB] [ysA]).1
      bobStream (by decide),
   (claim5_amended_dedup_keys ["bob"] [bobStream] ["alice"] [ysB] [ysA]).2
      ysB (by decide)⟩

/-- The delivery fold delivers exactly the streams whose send succeeds and
logs one warning per failed send, starting from any accumulator. -/
theorem deliver_foldl_spec {α : Type} (sendOk : α → Bool) (cache : List α)
    (d : List α) (k : Nat) :
    cache.foldl
        (fun acc s => if sendOk s then (acc.1 ++ [s], acc.2) else (acc.1, acc.2 + 1))
        (d, k)
      = (d ++ cache.filter sendOk,
         k + (cache.filter (fun s => !sendOk s)).length) := by
  induction cache generalizing d k with
  | nil => simp
  | cons x rest ih =>
    by_cases hx : sendOk x
    · simp [List.filter_cons, hx, ih]
    · simp [List.filter_cons, hx, ih]
      omega

/-- The delivery loop delivers exactly the streams whose send succeeds and
logs one warning per failed send. -/
theorem deliver_spec {α : Type} (sendOk : α → Bool) (cache : List α) :
    deliver sendOk cache
      = (cache.filter sendOk, (cache.filter (fun s => !sendOk s)).length) := by
  have h := deliver_foldl_spec sendOk cache [] 0
  simpa [deliver] using h

/-- Claim C3 counterexample: when the destination channel is missing the tick
raises `DiscordException` and aborts — even a newly live stream (which the
same tick with the channel present would deliver, second conjunct) is neither
delivered nor attempted — refuting the claim that a delivery error never
aborts the tick. -/
theorem claim3_counterexample :
    twitch_refresh_notify_check false ["alice"] (.ok [aliceUser])
        (fun _ => .ok [aliceStream]) [] (fun _ => true)
      = (.error .channelNotFound, [])
    ∧ twitch_refresh_notify_check true ["alice"] (.ok [aliceUser])
        (fun _ => .ok [aliceStream]) [] (fun _ => true)
      = (.ok ([aliceStream], 0), ["alice"]) := by
  constructor <;> rfl

/-- Claim C3, amended: a rejected message send is logged (one warning per
failure) and does not abort the tick — every other newly-live stream is still
delivered — and delivery outcomes never touch the tracker state, which is
exactly the diff's update; a missing destination channel, however, raises an
exception that aborts the tick before any fetch or delivery, leaving the
tracker state unchanged (on both platforms). -/
theorem claim3_amended_delivery (wl : List String) (users : List TwitchUser)
    (streams : List TwitchStream) (online : List String)
    (sendOk : TwitchStream → Bool) (ywl : List String)
    (chanResp : String → YtItems YouTubeChannel)
    (streamResp : YouTubeChannel → YtItems YtSearchItem)
    (running : List YouTubeStream) (ySendOk : YouTubeStream → Bool) :
    twitch_refresh_notify_check true wl (.ok users) (fun _ => .ok streams)
        online sendOk
      = (.ok ((twitchDiff wl streams online).1.filter sendOk,
              ((twitchDiff wl streams online).1.filter (fun s => !sendOk s)).length),
         (twitchDiff wl streams online).2)
    ∧ twitch_refresh_notify_check false wl (.ok users) (fun _ => .ok streams)
        online sendOk
      = (.error .channelNotFound, online)
    ∧ yt_refresh_notify_check false ywl chanResp streamResp running ySendOk
      = (.error .channelNotFound, running) := by
  refine ⟨?_, rfl, rfl⟩
  simp [twitch_refresh_notify_check, twitch_get_notifications, deliver_spec]

/-- If a watched name has no live stream, the Twitch loop never caches a
stream with that login: every cached stream's login has a live stream. -/
theorem twitch_cache_countP_of_dead (streams : List TwitchStream)
    (wl : List String) (st : List TwitchStream × List String) (name : String)
    (hdead : findStream streams name = none) :
    ((wl.foldl (twitchStep streams) st).1).countP (fun s => s.user.login == name)
      = st.1.countP (fun s => s.user.login == name) := by
  induction wl generalizing st with
  | nil => rfl
  | cons nm rest ih =>
    rw [List.foldl_cons]
    cases hfind : findStream streams nm with
    | none =>
      have hstep : twitchStep streams st nm = (st.1, st.2.erase nm) := by
        simp [twitchStep, hfind]
      rw [hstep, ih]
    | some x =>
      by_cases hc : nm ∈ st.2
      · have hstep : twitchStep streams st nm = st := by
          simp [twitchStep, hfind, hc]
        rw [hstep, ih]
      · have hstep : twitchStep streams st nm = (st.1 ++ [x], st.2 ++ [nm]) := by
          simp [twitchStep, hfind, hc]
        rw [hstep, ih]
        have hlogin : x.user.login = nm := findStream_login streams nm x hfind
        have hne : nm ≠ name := by
          intro he
          rw [he] at hfind
          rw [hfind] at hdead
          cases hdead
        simp [List.countP_append, List.countP_cons, hlogin, hne]

/-- A name with a live stream contributes at most one cached stream beyond
those already cached, and none at all if the name is already online. -/
theorem twitch_cache_countP_le_of_live (streams : List TwitchStream)
    (wl : List String) (st : List TwitchStream × List String) (name : String)
    (hlive : (findStream streams name).isSome) :
    ((wl.foldl (twitchStep streams) st).1).countP (fun s => s.user.login == name)
      ≤ st.1.countP (fun s => s.user.login == name)
        + (if name ∈ st.2 then 0 else 1) := by
  induction wl generalizing st with
  | nil => exact Nat.le_add_right _ _
  | cons nm rest ih =>
    rw [List.foldl_cons]
    cases hfind : findStream streams nm with
    | none =>
      have hstep : twitchStep streams st nm = (st.1, st.2.erase nm) := by
        simp [twitchStep, hfind]
      rw [hstep]
      refine le_trans (ih _) ?_
      have hne : name ≠ nm := by
        intro he
        rw [he, hfind] at hlive
        simp at hlive
      have hmem : name ∈ st.2.erase nm ↔ name ∈ st.2 := List.mem_erase_of_ne hne
      by_cases hm : name ∈ st.2
      · simp [hmem.mpr hm, hm]
      · have hm2 : name ∉ st.2.erase nm := fun hx => hm (hmem.mp hx)
        simp [hm2, hm]
    | some x =>
      by_cases hc : nm ∈ st.2
      · have hstep : twitchStep streams st nm = st := by
          simp [twitchStep, hfind, hc]
        rw [hstep]
        exact ih _
      · have hstep : twitchStep streams st nm = (st.1 ++ [x], st.2 ++ [nm]) := by
          simp [twitchStep, hfind, hc]
        rw [hstep]
        refine le_trans (ih _) ?_
        have hlogin : x.user.login = nm := findStream_login streams nm x hfind
        by_cases he : nm = name
        · subst he
          simp [List.countP_append, List.countP_cons, hlogin, hc]
        · have hne2 : name ≠ nm := fun h2 => he h2.symm
          simp [List.countP_append, List.countP_cons, List.mem_append, hlogin,
            he, hne2]

/-- The online list ends the Twitch loop with at most `max` of its prior
multiplicity and one occurrence of any name: an append only happens when the
name is absent, an erase only lowers the count. -/
theorem twitch_online_count_le (streams : List TwitchStream) (wl : List String)
    (st : List TwitchStream × List String) (name : String) :
    ((wl.foldl (twitchStep streams) st).2).count name ≤ max (st.2.count name) 1 := by
  induction wl generalizing st with
  | nil => exact le_max_left _ _
  | cons nm rest ih =>
    rw [List.foldl_cons]
    refine le_trans (ih _) (max_le ?_ (le_max_right _ _))
    cases hfind : findStream streams nm with
    | none =>
      have hstep : twitchStep streams st nm = (st.1, st.2.erase nm) := by
        simp [twitchStep, hfind]
      rw [hstep]
      exact le_trans ((List.erase_sublist nm st.2).count_le name) (le_max_left _ _)
    | some x =>
      by_cases hc : nm ∈ st.2
      · have hstep : twitchStep streams st nm = st := by
          simp [twitchStep, hfind, hc]
        rw [hstep]
        exact le_max_left _ _
      · have hstep : twitchStep streams st nm = (st.1 ++ [x], st.2 ++ [nm]) := by
          simp [twitchStep, hfind, hc]
        rw [hstep]
        by_cases he : name = nm
        · subst he
          have h0 : st.2.count name = 0 := List.count_eq_zero.mpr hc
          simp [List.count_append, List.count_cons, h0]
        · have h1 : (nm == name) = false :=
            beq_eq_false_iff_ne.mpr (fun h2 => he h2.symm)
          simp only [List.count_append, List.count_cons, List.count_nil, h1,
            Bool.false_eq_true, if_false, Nat.add_zero, Nat.zero_add]
          exact le_max_left _ _

/-- Claim C9: a channel name listed more than once in the watch list yields
at most one newly-live entry per tick and at most one online entry (provided
the prior online state held it at most once, as every reachable state does). -/
theorem claim9_duplicate_watch_entries (wl : List String)
    (streams : List TwitchStream) (online : List String) (name : String)
    (h : online.count name ≤ 1) :
    ((twitchDiff wl streams online).1.countP (fun s => s.user.login == name) ≤ 1)
    ∧ ((twitchDiff wl streams online).2.count name ≤ 1) := by
  constructor
  · cases hfind : findStream streams name with
    | none =>
      have hd := twitch_cache_countP_of_dead streams wl ([], online) name hfind
      rw [twitchDiff, hd]
      simp
    | some x =>
      have hl := twitch_cache_countP_le_of_live streams wl ([], online) name
        (by rw [hfind]; rfl)
      rw [twitchDiff]
      refine le_trans hl ?_
      by_cases hm : name ∈ online <;> simp [hm]
  · have ho := twitch_online_count_le streams wl ([], online) name
    rw [twitchDiff]
    exact le_trans ho (max_le h le_rfl)

/-- Witness for C9: the watch list lists alice twice while she is live. -/
theorem claim9_witness :
    (([] : List String).count "alice" ≤ 1)
    ∧ ((twitchDiff ["alice", "alice"] [aliceStream] []).1.countP
          (fun s => s.user.login == "alice") ≤ 1
      ∧ (twitchDiff ["alice", "alice"] [aliceStream] []).2.count "alice" ≤ 1) :=
  ⟨by decide,
   claim9_duplicate_watch_entries ["alice", "alice"] [aliceStream] [] "alice"
     (by decide)⟩

/-- The logins of the cached streams extend the accumulated logins by a
subsequence of the watch list: output order follows watch-list order. -/
theorem twitch_cache_login_sublist (streams : List TwitchStream)
    (wl : List String) (st : List TwitchStream × List String) :
    ((wl.foldl (twitchStep streams) st).1.map (fun s => s.user.login)).Sublist
      (st.1.map (fun s => s.user.login) ++ wl) := by
  induction wl generalizing st with
  | nil => simp
  | cons nm rest ih =>
    rw [List.foldl_cons]
    cases hfind : findStream streams nm with
    | none =>
      have hstep : twitchStep streams st nm = (st.1, st.2.erase nm) := by
        simp [twitchStep, hfind]
      rw [hstep]
      exact (ih _).trans
        (List.Sublist.append_left (List.sublist_cons_self nm rest) _)
    | some x =>
      by_cases hc : nm ∈ st.2
      · have hstep : twitchStep streams st nm = st := by
          simp [twitchStep, hfind, hc]
        rw [hstep]
        exact (ih _).trans
          (List.Sublist.append_left (List.sublist_cons_self nm rest) _)
      · have hstep : twitchStep streams st nm = (st.1 ++ [x], st.2 ++ [nm]) := by
          simp [twitchStep, hfind, hc]
        rw [hstep]
        have hlogin : x.user.login = nm := findStream_login streams nm x hfind
        have h2 := ih (st.1 ++ [x], st.2 ++ [nm])
        rw [List.map_append] at h2
        simpa [hlogin, List.append_assoc] using h2

/-- Permuting the fetched stream list changes neither the sequence of logins
reported newly live nor the resulting online state: only existence of a
stream per login matters to the branches taken. -/
theorem twitch_foldl_perm (streams streams2 : List TwitchStream)
    (hp : streams.Perm streams2) (wl : List String)
    (st st2 : List TwitchStream × List String)
    (hcache : st.1.map (fun s => s.user.login) = st2.1.map (fun s => s.user.login))
    (honline : st.2 = st2.2) :
    ((wl.foldl (twitchStep streams) st).1.map (fun s => s.user.login)
        = (wl.foldl (twitchStep streams2) st2).1.map (fun s => s.user.login))
    ∧ (wl.foldl (twitchStep streams) st).2 = (wl.foldl (twitchStep streams2) st2).2 := by
  induction wl generalizing st st2 with
  | nil => exact ⟨hcache, honline⟩
  | cons nm rest ih =>
    rw [List.foldl_cons, List.foldl_cons]
    have e1 : (findStream streams nm).isSome ↔ (findStream streams2 nm).isSome := by
      unfold findStream
      rw [List.find?_isSome, List.find?_isSome]
      exact ⟨fun ⟨x, hx, hq⟩ => ⟨x, hp.mem_iff.mp hx, hq⟩,
             fun ⟨x, hx, hq⟩ => ⟨x, hp.mem_iff.mpr hx, hq⟩⟩
    cases hfind : findStream streams nm with
    | none =>
      have hfind2 : findStream streams2 nm = none := by
        cases hf2 : findStream streams2 nm with
        | none => rfl
        | some y =>
          exfalso
          have hs := e1.mpr (by rw [hf2]; rfl)
          rw [hfind] at hs
          simp at hs
      have hstepa : twitchStep streams st nm = (st.1, st.2.erase nm) := by
        simp [twitchStep, hfind]
      have hstepb : twitchStep streams2 st2 nm = (st2.1, st2.2.erase nm) := by
        simp [twitchStep, hfind2]
      rw [hstepa, hstepb]
      exact ih _ _ hcache (by rw [honline])
    | some x =>
      have hs1 : (findStream streams nm).isSome := by rw [hfind]; rfl
      obtain ⟨y, hfind2⟩ := Option.isSome_iff_exists.mp (e1.mp hs1)
      have hx : x.user.login = nm := findStream_login streams nm x hfind
      have hy : y.user.login = nm := findStream_login streams2 nm y hfind2
      by_cases hc : nm ∈ st.2
      · have hc2 : nm ∈ st2.2 := by rw [← honline]; exact hc
        have hstepa : twitchStep streams st nm = st := by
          simp [twitchStep, hfind, hc]
        have hstepb : twitchStep streams2 st2 nm = st2 := by
          simp [twitchStep, hfind2, hc2]
        rw [hstepa, hstepb]
        exact ih _ _ hcache honline
      · have hc2 : nm ∉ st2.2 := by rw [← honline]; exact hc
        have hstepa : twitchStep streams st nm = (st.1 ++ [x], st.2 ++ [nm]) := by
          simp [twitchStep, hfind, hc]
        have hstepb : twitchStep streams2 st2 nm = (st2.1 ++ [y], st2.2 ++ [nm]) := by
          simp [twitchStep, hfind2, hc2]
        rw [hstepa, hstepb]
        refine ih _ _ ?_ ?_
        · rw [List.map_append, List.map_append, hcache]
          simp [hx, hy]
        · rw [honline]

/-- The YouTube record loop emits its cache as a subsequence of the current
stream list: output order follows the fetched order. -/
theorem ytAdd_cache_sublist (xs : List YouTubeStream)
    (st : List YouTubeStream × List YouTubeStream) :
    ((xs.foldl ytAddStep st).1).Sublist (st.1 ++ xs) := by
  induction xs generalizing st with
  | nil => simp
  | cons x rest ih =>
    rw [List.foldl_cons]
    by_cases hc : x ∈ st.2
    · have hstep : ytAddStep st x = st := by simp [ytAddStep, hc]
      rw [hstep]
      exact (ih _).trans
        (List.Sublist.append_left (List.sublist_cons_self x rest) _)
    · have hstep : ytAddStep st x = (st.1 ++ [x], st.2 ++ [x]) := by
        simp [ytAddStep, hc]
      rw [hstep]
      have h2 := ih (st.1 ++ [x], st.2 ++ [x])
      simpa [List.append_assoc] using h2

/-- When every per-channel search succeeds, `get_streams` returns one stream
per live channel, with the channels in watch-list (channel-list) order. -/
theorem ytGetStreamsGo_order (resp : YouTubeChannel → YtItems YtSearchItem)
    (channels : List YouTubeChannel) (cache : List YouTubeStream)
    (hok : ∀ ch ∈ channels, (resp ch).isOk = true) :
    ∃ l, ytGetStreamsGo resp channels cache = .ok (some l)
      ∧ (l.map (fun s => s.channel)).Sublist
          (cache.map (fun s => s.channel) ++ channels) := by
  induction channels generalizing cache with
  | nil => exact ⟨cache, rfl, by simp⟩
  | cons ch rest ih =>
    have hch := hok ch (List.mem_cons_self _ _)
    cases hresp : resp ch with
    | quota =>
      rw [hresp] at hch
      simp [YtItems.isOk] at hch
    | err r =>
      rw [hresp] at hch
      simp [YtItems.isOk] at hch
    | ok items =>
      cases items with
      | nil =>
        obtain ⟨l, hl, hsub⟩ := ih cache (fun c hcm => hok c (List.mem_cons_of_mem _ hcm))
        refine ⟨l, ?_, ?_⟩
        · simp only [ytGetStreamsGo, hresp]
          exact hl
        · exact hsub.trans
            (List.Sublist.append_left (List.sublist_cons_self ch rest) _)
      | cons it its =>
        obtain ⟨l, hl, hsub⟩ := ih (cache ++ [mkYouTubeStream ch it])
          (fun c hcm => hok c (List.mem_cons_of_mem _ hcm))
        refine ⟨l, ?_, ?_⟩
        · simp only [ytGetStreamsGo, hresp]
          exact hl
        · rw [List.map_append] at hsub
          simpa [mkYouTubeStream, List.append_assoc] using hsub

/-- Claim C7: the newly-live list follows the watch-list's declared order and
is independent of the platform response's order.  For Twitch: cached logins
form a subsequence of the watch list, and permuting the fetched streams
changes neither that login sequence nor the online state.  For YouTube: the
fetched streams carry their channels in channel-list order (itself the
watch-list traversal order of `get_channels`), and the newly-live output is a
subsequence of the fetched list. -/
theorem claim7_watchlist_order (wl : List String)
    (streams streams2 : List TwitchStream) (online : List String)
    (hp : streams.Perm streams2) (channels : List YouTubeChannel)
    (resp : YouTubeChannel → YtItems YtSearchItem)
    (hok : ∀ ch ∈ channels, (resp ch).isOk = true)
    (running : List YouTubeStream) :
    ((twitchDiff wl streams online).1.map (fun s => s.user.login)).Sublist wl
    ∧ (twitchDiff wl streams online).1.map (fun s => s.user.login)
        = (twitchDiff wl streams2 online).1.map (fun s => s.user.login)
    ∧ ∃ l, yt_get_streams (some channels) resp = .ok (some l)
        ∧ ((ytDiff l running).1.map (fun s => s.channel)).Sublist
            (l.map (fun s => s.channel))
        ∧ (l.map (fun s => s.channel)).Sublist channels := by
  refine ⟨?_, ?_, ?_⟩
  · have h := twitch_cache_login_sublist streams wl ([], online)
    simpa [twitchDiff] using h
  · exact (twitch_foldl_perm streams streams2 hp wl ([], online) ([], online) rfl rfl).1
  · obtain ⟨l, hl, hsub⟩ := ytGetStreamsGo_order resp channels [] hok
    refine ⟨l, hl, ?_, by simpa using hsub⟩
    have h2 := ytAdd_cache_sublist l ([], ytRemoveStale l running)
    have h3 : ((ytDiff l running).1).Sublist l := by simpa [ytDiff] using h2
    exact List.Sublist.map _ h3

/-- Witness for C7: bob's stream listed before alice's in the response while
the watch list says alice first; one watched YouTube channel with one live
search result. -/
theorem claim7_witness :
    ((twitchDiff ["alice", "bob"] [bobStream, aliceStream] []).1.map
        (fun s => s.user.login)).Sublist ["alice", "bob"]
    ∧ (twitchDiff ["alice", "bob"] [bobStream, aliceStream] []).1.map
        (fun s => s.user.login)
      = (twitchDiff ["alice", "bob"] [aliceStream, bobStream] []).1.map
          (fun s => s.user.login)
    ∧ ∃ l, yt_get_streams (some [ytChanA]) (fun _ => YtItems.ok [itemA])
          = .ok (some l)
        ∧ ((ytDiff l []).1.map (fun s => s.channel)).Sublist
            (l.map (fun s => s.channel))
        ∧ (l.map (fun s => s.channel)).Sublist [ytChanA] :=
  claim7_watchlist_order ["alice", "bob"] [bobStream, aliceStream]
    [aliceStream, bobStream] [] (List.Perm.swap aliceStream bobStream [])
    [ytChanA] (fun _ => YtItems.ok [itemA]) (by decide) []
